import Mathlib

/-!
Verification of the AI-response extraction and spreadsheet pipeline of the
Beta_UserData_Clean server (src/server.js and the unnamed server variant).

The JavaScript code is shallowly embedded: JS strings become `List Char`,
JSON values become the inductive `Json` (numbers restricted to integers),
thrown errors become `Except` errors.  Each definition mirrors the source
expression it is named after.
-/

namespace BetaUserData

/-- JS character classes used by `String.prototype.trim` (common cases). -/
def isWsChar (c : Char) : Bool :=
  c = ' ' || c = '\t' || c = '\n' || c = '\r'

/-- The double-quote character. -/
def quoteChar : Char := Char.ofNat 34

/-- The backslash character. -/
def backslashChar : Char := Char.ofNat 92

/-- The open-brace character. -/
def lbraceChar : Char := Char.ofNat 123

/-- The close-brace character. -/
def rbraceChar : Char := Char.ofNat 125

/-- The open-bracket character. -/
def lbrack : Char := '['

/-- The close-bracket character. -/
def rbrack : Char := ']'

/-- JSON values as produced by `JSON.parse` (numbers restricted to integers;
the pipeline only ever inspects string-valued fields). -/
inductive Json where
  | null : Json
  | bool : Bool → Json
  | num : Int → Json
  | str : List Char → Json
  | arr : List Json → Json
  | obj : List (List Char × Json) → Json

/-- JS truthiness of a value (`if (x)`), on the embedded value space. -/
def jsTruthy : Json → Bool
  | Json.null => false
  | Json.bool b => b
  | Json.num n => decide (n ≠ 0)
  | Json.str s => decide (s ≠ [])
  | Json.arr _ => true
  | Json.obj _ => true

/-- Association-list lookup for JS object property access. -/
def lookupKey : List (List Char × Json) → List Char → Option Json
  | [], _ => none
  | (k0, v) :: rest, k => if k0 = k then some v else lookupKey rest k

/-- JS property access `x.k`: `none` models `undefined` (missing key or
non-object receiver). -/
def jsField : Json → List Char → Option Json
  | Json.obj kvs, k => lookupKey kvs k
  | _, _ => none

/-- JS trim: drop leading and trailing whitespace. -/
def jsTrim (l : List Char) : List Char :=
  ((l.dropWhile isWsChar).reverse.dropWhile isWsChar).reverse

/-- JS `indexOf` on characters (`none` models `-1`). -/
def jsIndexOf (l : List Char) (c : Char) : Option Nat :=
  l.findIdx? (· = c)

/-- JS `lastIndexOf` on characters (`none` models `-1`). -/
def jsLastIndexOf (l : List Char) (c : Char) : Option Nat :=
  (l.reverse.findIdx? (· = c)).map (fun i => l.length - 1 - i)

/-- JS `substring(a, b)` for `a ≤ b` within bounds. -/
def jsSubstring (l : List Char) (a b : Nat) : List Char :=
  (l.take b).drop a

/-! ## A JSON parser modelling `JSON.parse`

Fuel-indexed recursive descent.  The fuel is only a termination device:
`parseJson` supplies more fuel than any input can consume.  Number syntax is
restricted to optionally signed integers; string escapes cover the common
cases produced in this pipeline. -/

/-- Skip JSON inter-token whitespace. -/
def skipWs (l : List Char) : List Char := l.dropWhile isWsChar

/-- Decode one escape character after a backslash. -/
def unescapeChar (c : Char) : Option Char :=
  if c = quoteChar then some quoteChar
  else if c = backslashChar then some backslashChar
  else if c = '/' then some '/'
  else if c = 'n' then some (Char.ofNat 10)
  else if c = 't' then some (Char.ofNat 9)
  else if c = 'r' then some (Char.ofNat 13)
  else none

/-- Parse the body of a JSON string after the opening quote; returns the
decoded characters and the remaining input after the closing quote. -/
def pString : List Char → Option (List Char × List Char)
  | [] => none
  | c :: rest =>
    if c = quoteChar then some ([], rest)
    else if c = backslashChar then
      match rest with
      | [] => none
      | e :: rest2 =>
        match unescapeChar e with
        | some u => (pString rest2).map (fun p => (u :: p.1, p.2))
        | none => none
    else (pString rest).map (fun p => (c :: p.1, p.2))

/-- Parse a nonempty digit run as a natural number. -/
def pNat (l : List Char) : Option (Nat × List Char) :=
  let ds := l.takeWhile Char.isDigit
  if ds = [] then none
  else some (ds.foldl (fun a c => 10 * a + (c.toNat - 48)) 0, l.dropWhile Char.isDigit)

mutual

/-- Parse one JSON value. -/
def pValue : Nat → List Char → Option (Json × List Char)
  | 0, _ => none
  | Nat.succ fuel, input =>
    let l := skipWs input
    if l.take 4 = ("null".data) then some (Json.null, l.drop 4)
    else if l.take 4 = ("true".data) then some (Json.bool true, l.drop 4)
    else if l.take 5 = ("false".data) then some (Json.bool false, l.drop 5)
    else
      match l with
      | [] => none
      | c :: rest =>
        if c = quoteChar then (pString rest).map (fun p => (Json.str p.1, p.2))
        else if c = lbrack then pArrItems fuel (skipWs rest)
        else if c = lbraceChar then pObjItems fuel (skipWs rest)
        else if c = '-' then
          match pNat rest with
          | some (n, r2) => some (Json.num (-(Int.ofNat n)), r2)
          | none => none
        else if c.isDigit then
          match pNat l with
          | some (n, r2) => some (Json.num (Int.ofNat n), r2)
          | none => none
        else none

/-- Parse array items after the opening bracket (whitespace already skipped). -/
def pArrItems : Nat → List Char → Option (Json × List Char)
  | 0, _ => none
  | Nat.succ fuel, l =>
    match l with
    | [] => none
    | c :: rest =>
      if c = rbrack then some (Json.arr [], rest)
      else
        match pValue fuel l with
        | some (v, r2) => pArrRest fuel [v] r2
        | none => none

/-- Parse the remainder of an array after at least one item (accumulator is
reversed). -/
def pArrRest : Nat → List Json → List Char → Option (Json × List Char)
  | 0, _, _ => none
  | Nat.succ fuel, acc, l =>
    match skipWs l with
    | [] => none
    | c :: rest =>
      if c = rbrack then some (Json.arr acc.reverse, rest)
      else if c = ',' then
        match pValue fuel rest with
        | some (v, r2) => pArrRest fuel (v :: acc) r2
        | none => none
      else none

/-- Parse object members after the opening brace (whitespace already
skipped). -/
def pObjItems : Nat → List Char → Option (Json × List Char)
  | 0, _ => none
  | Nat.succ fuel, l =>
    match l with
    | [] => none
    | c :: rest =>
      if c = rbraceChar then some (Json.obj [], rest)
      else if c = quoteChar then
        match pString rest with
        | some (k, r2) =>
          match skipWs r2 with
          | c2 :: r3 =>
            if c2 = ':' then
              match pValue fuel r3 with
              | some (v, r4) => pObjRest fuel [(k, v)] r4
              | none => none
            else none
          | [] => none
        | none => none
      else none

/-- Parse the remainder of an object after at least one member (accumulator
is reversed). -/
def pObjRest : Nat → List (List Char × Json) → List Char → Option (Json × List Char)
  | 0, _, _ => none
  | Nat.succ fuel, acc, l =>
    match skipWs l with
    | [] => none
    | c :: rest =>
      if c = rbraceChar then some (Json.obj acc.reverse, rest)
      else if c = ',' then
        match skipWs rest with
        | c2 :: r2 =>
          if c2 = quoteChar then
            match pString r2 with
            | some (k, r3) =>
              match skipWs r3 with
              | c3 :: r4 =>
                if c3 = ':' then
                  match pValue fuel r4 with
                  | some (v, r5) => pObjRest fuel ((k, v) :: acc) r5
                  | none => none
                else none
              | [] => none
            | none => none
          else none
        | [] => none
      else none

end

/-- Model of JSON.parse: parse a complete JSON text (only trailing whitespace may
remain). -/
def parseJson (l : List Char) : Option Json :=
  match pValue (3 * l.length + 8) l with
  | some (v, rest) => if skipWs rest = [] then some v else none
  | none => none

/-! ## The extraction step of `processExcel`

From the source (identical in both variants):

    let modelText = modelResult.trim();
    if (!modelText) throw new Error('AI model returned empty response');
    const firstBracket = modelText.indexOf('[');
    const lastBracket = modelText.lastIndexOf(']');
    if (firstBracket !== -1 && lastBracket !== -1 && lastBracket > firstBracket) {
      modelText = modelText.substring(firstBracket, lastBracket + 1);
    } else {
      throw new Error('AI response does not contain a valid JSON array');
    }
    let parsed;
    try { parsed = JSON.parse(modelText); }
    catch (parseError) { throw new Error('AI response is not valid JSON: ...'); }
-/

/-- The distinct error branches of the extraction step. -/
inductive ProcErr where
  | emptyResponse : ProcErr
  | noJsonArray : ProcErr
  | invalidJson : ProcErr
deriving DecidableEq

/-- The bracket-slicing stage of the extraction step. -/
def extractArrayText (raw : List Char) : Except ProcErr (List Char) :=
  let t := jsTrim raw
  if t = [] then Except.error ProcErr.emptyResponse
  else
    match jsIndexOf t lbrack, jsLastIndexOf t rbrack with
    | some f, some l =>
      if f < l then Except.ok (jsSubstring t f (l + 1))
      else Except.error ProcErr.noJsonArray
    | some _, none => Except.error ProcErr.noJsonArray
    | none, _ => Except.error ProcErr.noJsonArray

/-- The whole extraction step: bracket slicing followed by `JSON.parse`. -/
def extractRecords (raw : List Char) : Except ProcErr Json :=
  match extractArrayText raw with
  | Except.error e => Except.error e
  | Except.ok t =>
    match parseJson t with
    | some v => Except.ok v
    | none => Except.error ProcErr.invalidJson

/-! ## The row reconciler

Overlay policy, from the unnamed server variant (part_000):

    const merged = rows.map((r, i) => {
      const ai = parsed[i] || {};
      return {
        ...r,
        Module: ai.Module || '',
        'Summarized Problem': ai['Summarized Problem'] || ai.SummarizedProblem || '',
        Severity: ai.Severity || ''
      };
    });

Replace policy, from src/server.js:

    const merged = parsed;
-/

/-- A JS object literal as an ordered key/value list. -/
abbrev JsObj := List (List Char × Json)

/-- JS property assignment `o[k] = v` on an object literal: overwrite the key
in place if present, otherwise append it. -/
def setKey : JsObj → List Char → Json → JsObj
  | [], k, v => [(k, v)]
  | (k0, v0) :: rest, k, v =>
    if k0 = k then (k0, v) :: rest else (k0, v0) :: setKey rest k v

/-- JS indexing `x[i]` for the value shapes the reconciler can meet. -/
def jsIndex : Json → Nat → Option Json
  | Json.arr xs, i => xs.get? i
  | Json.str s, i => (s.get? i).map (fun c => Json.str [c])
  | _, _ => none

/-- The expression `parsed[i] || \x7b\x7d` from the overlay merge. -/
def aiAt (parsed : Json) (i : Nat) : Json :=
  match jsIndex parsed i with
  | some v => if jsTruthy v then v else Json.obj []
  | none => Json.obj []

/-- JS defaulting `x || ''` on a possibly-undefined field access. -/
def jsOrEmpty (o : Option Json) : Json :=
  match o with
  | some v => if jsTruthy v then v else Json.str []
  | none => Json.str []

/-- JS defaulting `x || y || ''` on two possibly-undefined field accesses. -/
def jsOr2Empty (a b : Option Json) : Json :=
  match a with
  | some v => if jsTruthy v then v else jsOrEmpty b
  | none => jsOrEmpty b

/-- The canonical key "Module". -/
def kModule : List Char := ("Module".data)

/-- The canonical key "Summarized Problem". -/
def kSummarized : List Char := ("Summarized Problem".data)

/-- The compact alias key "SummarizedProblem". -/
def kSummarizedCompact : List Char := ("SummarizedProblem".data)

/-- The canonical key "Severity". -/
def kSeverity : List Char := ("Severity".data)

/-- The key "Severity Reason" (present in the prompt, not in the overlay
merge). -/
def kSeverityReason : List Char := ("Severity Reason".data)

/-- One merged row of the overlay policy:
`{...r, Module: ..., 'Summarized Problem': ..., Severity: ...}`. -/
def mergeRow (r : JsObj) (ai : Json) : JsObj :=
  setKey
    (setKey
      (setKey r kModule (jsOrEmpty (jsField ai kModule)))
      kSummarized (jsOr2Empty (jsField ai kSummarized) (jsField ai kSummarizedCompact)))
    kSeverity (jsOrEmpty (jsField ai kSeverity))

/-- The `rows.map((r, i) => ...)` loop of the overlay merge, as an index-threading
recursion. -/
def overlayMergeGo (parsed : Json) : Nat → List JsObj → List JsObj
  | _, [] => []
  | i, r :: rest => mergeRow r (aiAt parsed i) :: overlayMergeGo parsed (i + 1) rest

/-- The overlay reconciliation of the unnamed server variant. -/
def overlayMerge (rows : List JsObj) (parsed : Json) : List JsObj :=
  overlayMergeGo parsed 0 rows

/-- The replace reconciliation of src/server.js: `const merged = parsed;`. -/
def reconcileReplace (originalRows : List JsObj) (aiRecords : Json) : Json :=
  aiRecords

/-- Whether a JSON value is an object. -/
def isObjJson : Json → Bool
  | Json.obj _ => true
  | _ => false

/-! ## Output naming (src/server.js)

    const datetime = now.getFullYear() +
                     ('0' + (now.getMonth() + 1)).slice(-2) +
                     ('0' + now.getDate()).slice(-2) + '-' +
                     ('0' + now.getHours()).slice(-2) +
                     ('0' + now.getMinutes()).slice(-2) +
                     ('0' + now.getSeconds()).slice(-2);
    const processedFilename = `${model.replace(/:/g, '')}-${datetime}-${originalName}`;
    const processedPath = path.join('downloads', processedFilename);
-/

/-- Decimal digits of a natural number, as `String(n)` renders them. -/
def natDigits (n : Nat) : List Char :=
  if h : n < 10 then [Char.ofNat (48 + n)]
  else natDigits (n / 10) ++ [Char.ofNat (48 + n % 10)]
decreasing_by exact Nat.div_lt_self (by omega) (by omega)

/-- JS padding `('0' + n).slice(-2)`: prepend a zero and keep the last two characters. -/
def pad2 (n : Nat) : List Char :=
  let s := Char.ofNat 48 :: natDigits n
  s.drop (s.length - 2)

/-- The observable fields of the JS `Date` used by the namer (accessor
values: `getMonth()` is zero-based). -/
structure JsDate where
  fullYear : Nat
  monthIndex : Nat
  dayOfMonth : Nat
  hours : Nat
  minutes : Nat
  seconds : Nat

/-- The `datetime` template string. -/
def datetimeString (d : JsDate) : List Char :=
  natDigits d.fullYear ++ pad2 (d.monthIndex + 1) ++ pad2 d.dayOfMonth
    ++ '-' :: (pad2 d.hours ++ pad2 d.minutes ++ pad2 d.seconds)

/-- The sanitizer `model.replace(/:/g, '')`. -/
def stripColons (s : List Char) : List Char :=
  s.filter (fun c => c ≠ ':')

/-- The produced output filename. -/
def processedFilename (model : List Char) (d : JsDate) (originalName : List Char) : List Char :=
  stripColons model ++ '-' :: (datetimeString d ++ '-' :: originalName)

/-- The stored path `path.join('downloads', processedFilename)`. -/
def processedPath (model : List Char) (d : JsDate) (originalName : List Char) : List Char :=
  ("downloads/".data) ++ processedFilename model d originalName

/-! ## The inference client's response handler (part_000 `callOllama`)

    const jsonResponse = JSON.parse(responseData);
    if (jsonResponse && jsonResponse.error) {
      return reject(new Error(`Ollama error: ...`));
    }
    const reply = jsonResponse.response ?? jsonResponse.output ?? jsonResponse.result ?? responseData;
    if (!reply || (typeof reply === 'string' && reply.trim().length === 0)) {
      return reject(new Error('AI model returned empty response'));
    }
    resolve(reply);
    ... catch (parseErr) { reject(new Error('Failed to parse Ollama response')); }
-/

/-- Failure modes of the inference client's end-of-response handler. -/
inductive OllamaErr where
  | malformedReply : OllamaErr
  | backendError : OllamaErr
  | emptyReply : OllamaErr
deriving DecidableEq

/-- Truthiness of a possibly-undefined value (`undefined` is falsy). -/
def truthyOpt (o : Option Json) : Bool :=
  match o with
  | some v => jsTruthy v
  | none => false

/-- JS nullish coalescing `a ?? b` where `a` is a field access (`none`
models `undefined`). -/
def jsNullish (a : Option Json) (b : Json) : Json :=
  match a with
  | some Json.null => b
  | some v => v
  | none => b

/-- The fallback chain `jsonResponse.response ?? jsonResponse.output ?? jsonResponse.result ??
responseData`. -/
def extractedReply (j : Json) (raw : List Char) : Json :=
  jsNullish (jsField j ("response".data))
    (jsNullish (jsField j ("output".data))
      (jsNullish (jsField j ("result".data)) (Json.str raw)))

/-- The emptiness test `!reply || (typeof reply === 'string' && reply.trim().length === 0)`. -/
def isEmptyReplyVal (r : Json) : Bool :=
  !jsTruthy r ||
    (match r with
     | Json.str s => decide (jsTrim s = [])
     | _ => false)

/-- The end-of-response handler of `callOllama` in the unnamed variant. -/
def callOllamaOnEnd (raw : List Char) : Except OllamaErr Json :=
  match parseJson raw with
  | none => Except.error OllamaErr.malformedReply
  | some j =>
    if jsTruthy j && truthyOpt (jsField j ("error".data)) then
      Except.error OllamaErr.backendError
    else if isEmptyReplyVal (extractedReply j raw) then
      Except.error OllamaErr.emptyReply
    else
      Except.ok (extractedReply j raw)

/-! ## Spreadsheet codec

Modelled from the spec: the `xlsx` library itself is a third-party
dependency whose code is not in the repository; its behaviour as used here
(`sheet_to_json` with `defval: ''` over the first sheet, and
`json_to_sheet`) is taken from the specification: the header row defines
column names, blank cells decode to the empty string, and encoding takes
the column order from the union of row keys in first-seen order. -/

/-- A single worksheet: a header row of column names and data rows of cells
(`none` is a blank cell). -/
structure Sheet where
  header : List String
  dataRows : List (List (Option String))

/-- Modelled from the spec: `xlsx.utils.sheet_to_json(worksheet, { defval: '' })` —
one record per data row, keys from the header row, blank cells becoming
empty strings. -/
def sheet_to_json (s : Sheet) : List (List (String × String)) :=
  s.dataRows.map (fun row =>
    s.header.enum.map (fun p => (p.2, ((row.get? p.1).bind id).getD "")))

/-- Association lookup used by the encoder. -/
def lookupStr : List (String × String) → String → Option String
  | [], _ => none
  | (k0, v) :: rest, k => if k0 = k then some v else lookupStr rest k

/-- Columns in first-seen order across all rows. -/
def firstSeenColumns (rows : List (List (String × String))) : List String :=
  rows.foldl (fun acc r => acc ++ (r.map Prod.fst).filter (fun k => !acc.contains k)) []

/-- Modelled from the spec: `xlsx.utils.json_to_sheet(merged)` — a single
sheet whose column order is the union of row keys in first-seen order. -/
def json_to_sheet (rows : List (List (String × String))) : Sheet :=
  let cols := firstSeenColumns rows
  { header := cols
    dataRows := rows.map (fun r => cols.map (fun c => lookupStr r c)) }

/-! ## The write/cleanup/respond tail of `processExcel`

    fs.writeFileSync(processedPath, buf);
    fs.unlinkSync(uploadedPath);
    res.json({ success: true, downloadUrl: `/downloads/...`, filename ... });
  } catch (error) {
    res.status(500).json({ success: false, error: ... });
  }

Both filesystem calls are synchronous and may throw; any throw lands in the
surrounding catch, which sends the 500 error response. -/

/-- Filesystem actions the tail attempts, in order. -/
inductive FsStep where
  | writeOutput : FsStep
  | unlinkUpload : FsStep
deriving DecidableEq

/-- The two response shapes `processExcel` can send. -/
inductive ExcelResponse where
  | success (downloadUrl : List Char) (filename : List Char) : ExcelResponse
  | failure (status : Nat) (message : List Char) : ExcelResponse
deriving DecidableEq

/-- The tail of `processExcel`: the outcome of each filesystem call is an
input (the environment decides whether it throws), and the function mirrors
the try/catch control flow, also recording which calls were attempted. -/
def finishExcel (writeRes : Except (List Char) Unit) (unlinkRes : Except (List Char) Unit)
    (fname : List Char) : ExcelResponse × List FsStep :=
  match writeRes with
  | Except.error e => (ExcelResponse.failure 500 e, [FsStep.writeOutput])
  | Except.ok _ =>
    match unlinkRes with
    | Except.error e => (ExcelResponse.failure 500 e, [FsStep.writeOutput, FsStep.unlinkUpload])
    | Except.ok _ =>
      (ExcelResponse.success (("/downloads/".data) ++ fname) fname,
        [FsStep.writeOutput, FsStep.unlinkUpload])

/-! ## Helper lemmas about the reconciler -/

theorem lookupKey_setKey_self (l : JsObj) (k : List Char) (v : Json) :
    lookupKey (setKey l k v) k = some v := by
  induction l with
  | nil => simp [setKey, lookupKey]
  | cons kv rest ih =>
    obtain ⟨k0, v0⟩ := kv
    by_cases h : k0 = k
    · simp [setKey, h, lookupKey]
    · simp [setKey, h, lookupKey, ih]

theorem lookupKey_setKey_ne (l : JsObj) (k k2 : List Char) (v : Json) (h : k2 ≠ k) :
    lookupKey (setKey l k v) k2 = lookupKey l k2 := by
  induction l with
  | nil =>
    simp only [setKey, lookupKey]
    rw [if_neg (fun he => h he.symm)]
  | cons kv rest ih =>
    obtain ⟨k0, v0⟩ := kv
    by_cases h0 : k0 = k
    · subst h0
      simp only [setKey, if_pos rfl, lookupKey]
      rw [if_neg (fun he => h he.symm), if_neg (fun he => h he.symm)]
    · simp [setKey, h0, lookupKey, ih]

theorem mergeRow_lookup_module (r : JsObj) (ai : Json) :
    lookupKey (mergeRow r ai) kModule = some (jsOrEmpty (jsField ai kModule)) := by
  unfold mergeRow
  rw [lookupKey_setKey_ne _ _ _ _ (by decide), lookupKey_setKey_ne _ _ _ _ (by decide),
    lookupKey_setKey_self]

theorem mergeRow_lookup_summarized (r : JsObj) (ai : Json) :
    lookupKey (mergeRow r ai) kSummarized
      = some (jsOr2Empty (jsField ai kSummarized) (jsField ai kSummarizedCompact)) := by
  unfold mergeRow
  rw [lookupKey_setKey_ne _ _ _ _ (by decide), lookupKey_setKey_self]

theorem mergeRow_lookup_severity (r : JsObj) (ai : Json) :
    lookupKey (mergeRow r ai) kSeverity = some (jsOrEmpty (jsField ai kSeverity)) := by
  unfold mergeRow
  rw [lookupKey_setKey_self]

theorem mergeRow_lookup_other (r : JsObj) (ai : Json) (k : List Char)
    (h1 : k ≠ kModule) (h2 : k ≠ kSummarized) (h3 : k ≠ kSeverity) :
    lookupKey (mergeRow r ai) k = lookupKey r k := by
  unfold mergeRow
  rw [lookupKey_setKey_ne _ _ _ _ h3, lookupKey_setKey_ne _ _ _ _ h2,
    lookupKey_setKey_ne _ _ _ _ h1]

theorem overlayMergeGo_get? (parsed : Json) (rows : List JsObj) (j i : Nat) :
    (overlayMergeGo parsed j rows).get? i
      = (rows.get? i).map (fun r => mergeRow r (aiAt parsed (j + i))) := by
  induction rows generalizing j i with
  | nil => simp [overlayMergeGo]
  | cons r rest ih =>
    cases i with
    | zero => simp [overlayMergeGo]
    | succ i =>
      simp only [overlayMergeGo, List.get?_cons_succ, ih (j + 1) i, Nat.add_assoc,
        Nat.add_comm 1 i]

theorem overlayMerge_get? (rows : List JsObj) (parsed : Json) (i : Nat) :
    (overlayMerge rows parsed).get? i
      = (rows.get? i).map (fun r => mergeRow r (aiAt parsed i)) := by
  unfold overlayMerge
  rw [overlayMergeGo_get?]
  simp

theorem overlayMergeGo_length (parsed : Json) (rows : List JsObj) (j : Nat) :
    (overlayMergeGo parsed j rows).length = rows.length := by
  induction rows generalizing j with
  | nil => rfl
  | cons r rest ih => simp [overlayMergeGo, ih]

/-- An AI element that is not an object has no readable fields. -/
theorem jsField_aiAt_nonobj (elems : List Json) (i : Nat) (e : Json)
    (he : elems.get? i = some e) (hob : isObjJson e = false) (k : List Char) :
    jsField (aiAt (Json.arr elems) i) k = none := by
  have hstep : aiAt (Json.arr elems) i = if jsTruthy e then e else Json.obj [] := by
    simp only [aiAt, jsIndex, he]
  rw [hstep]
  by_cases ht : jsTruthy e
  · simp only [ht, if_true]
    cases e <;> simp_all [jsField, isObjJson]
  · simp [ht, jsField, lookupKey]

/-! ## C3 and C10: the overlay reconciliation -/

/-- A sample original row for the Severity Reason counterexample. -/
def cexRow : JsObj := [(("Case".data), Json.str ("C1".data))]

/-- A parsed AI array whose single record carries a "Severity Reason". -/
def cexAi : Json :=
  Json.arr [Json.obj [(kSeverityReason, Json.str ("Critical impact".data))]]

/-- C3 counterexample: the AI record supplies a "Severity Reason" field, yet
the overlay-merged row does not contain the key at all — the overlay merge
only writes Module, Summarized Problem and Severity. -/
theorem overlay_drops_severity_reason :
    jsField (aiAt cexAi 0) kSeverityReason = some (Json.str ("Critical impact".data)) ∧
    overlayMerge [cexRow] cexAi
      = [[(("Case".data), Json.str ("C1".data)), (kModule, Json.str []),
          (kSummarized, Json.str []), (kSeverity, Json.str [])]] ∧
    lookupKey ((overlayMerge [cexRow] cexAi).headD []) kSeverityReason = none :=
  ⟨rfl, rfl, rfl⟩

/-- C3 (amended): under the overlay policy, row i of the result retains every
original key and value except Module, Summarized Problem and Severity, which
are taken from `aiRecords[i]` via the JS `|| ''` defaulting (with the
SummarizedProblem alias for the summary), and all three default to the empty
string when `aiRecords[i]` is absent. -/
theorem overlay_row_semantics (rows : List JsObj) (elems : List Json) (i : Nat) (r : JsObj)
    (hr : rows.get? i = some r) :
    (overlayMerge rows (Json.arr elems)).get? i
        = some (mergeRow r (aiAt (Json.arr elems) i)) ∧
    (∀ k, k ≠ kModule → k ≠ kSummarized → k ≠ kSeverity →
      lookupKey (mergeRow r (aiAt (Json.arr elems) i)) k = lookupKey r k) ∧
    lookupKey (mergeRow r (aiAt (Json.arr elems) i)) kModule
        = some (jsOrEmpty (jsField (aiAt (Json.arr elems) i) kModule)) ∧
    lookupKey (mergeRow r (aiAt (Json.arr elems) i)) kSummarized
        = some (jsOr2Empty (jsField (aiAt (Json.arr elems) i) kSummarized)
            (jsField (aiAt (Json.arr elems) i) kSummarizedCompact)) ∧
    lookupKey (mergeRow r (aiAt (Json.arr elems) i)) kSeverity
        = some (jsOrEmpty (jsField (aiAt (Json.arr elems) i) kSeverity)) ∧
    (elems.get? i = none →
      lookupKey (mergeRow r (aiAt (Json.arr elems) i)) kModule = some (Json.str []) ∧
      lookupKey (mergeRow r (aiAt (Json.arr elems) i)) kSummarized = some (Json.str []) ∧
      lookupKey (mergeRow r (aiAt (Json.arr elems) i)) kSeverity = some (Json.str [])) := by
  refine ⟨?_, mergeRow_lookup_other r _, mergeRow_lookup_module r _,
    mergeRow_lookup_summarized r _, mergeRow_lookup_severity r _, ?_⟩
  · rw [overlayMerge_get?, hr]
    rfl
  · intro he
    have hnone : aiAt (Json.arr elems) i = Json.obj [] := by
      simp only [aiAt, jsIndex, he]
    rw [mergeRow_lookup_module r _, mergeRow_lookup_summarized r _,
      mergeRow_lookup_severity r _, hnone]
    exact ⟨rfl, rfl, rfl⟩

theorem overlay_row_semantics_witness :
    ([cexRow].get? 0 = some cexRow) ∧
    lookupKey (mergeRow cexRow (aiAt cexAi 0)) kSeverity
      = some (jsOrEmpty (jsField (aiAt cexAi 0) kSeverity)) :=
  ⟨rfl, (overlay_row_semantics [cexRow]
    [Json.obj [(kSeverityReason, Json.str ("Critical impact".data))]] 0 cexRow rfl).2.2.2.2.1⟩

/-- C10: the overlay result has exactly as many rows as the original row
sequence (extra AI records are dropped), and a null or non-object AI element
degrades to empty-string AI fields without any failure. -/
theorem overlay_length_and_degrade (rows : List JsObj) (elems : List Json) :
    (overlayMerge rows (Json.arr elems)).length = rows.length ∧
    (∀ i e r, elems.get? i = some e → rows.get? i = some r → isObjJson e = false →
      (overlayMerge rows (Json.arr elems)).get? i
          = some (mergeRow r (aiAt (Json.arr elems) i)) ∧
      lookupKey (mergeRow r (aiAt (Json.arr elems) i)) kModule = some (Json.str []) ∧
      lookupKey (mergeRow r (aiAt (Json.arr elems) i)) kSummarized = some (Json.str []) ∧
      lookupKey (mergeRow r (aiAt (Json.arr elems) i)) kSeverity = some (Json.str [])) := by
  refine ⟨overlayMergeGo_length _ rows 0, ?_⟩
  intro i e r he hr hob
  have hf := jsField_aiAt_nonobj elems i e he hob
  refine ⟨?_, ?_, ?_, ?_⟩
  · rw [overlayMerge_get?, hr]
    rfl
  · rw [mergeRow_lookup_module, hf]
    rfl
  · rw [mergeRow_lookup_summarized, hf, hf]
    rfl
  · rw [mergeRow_lookup_severity, hf]
    rfl

theorem overlay_length_and_degrade_witness :
    ([Json.null, Json.num 5].get? 0 = some Json.null) ∧
    ([cexRow].get? 0 = some cexRow) ∧
    (isObjJson Json.null = false) ∧
    lookupKey (mergeRow cexRow (aiAt (Json.arr [Json.null, Json.num 5]) 0)) kModule
      = some (Json.str []) :=
  ⟨rfl, rfl, rfl,
    ((overlay_length_and_degrade [cexRow] [Json.null, Json.num 5]).2 0 Json.null cexRow
      rfl rfl rfl).2.1⟩

/-! ## Helper lemmas about trimming and bracket positions -/

/-- The trimmed text is an inner segment of the original text. -/
theorem jsTrim_decomp (l : List Char) : ∃ p s, l = p ++ jsTrim l ++ s := by
  refine ⟨l.takeWhile isWsChar,
    ((l.dropWhile isWsChar).reverse.takeWhile isWsChar).reverse, ?_⟩
  have h1 : l = l.takeWhile isWsChar ++ l.dropWhile isWsChar :=
    (List.takeWhile_append_dropWhile isWsChar l).symm
  have h2 : (l.dropWhile isWsChar).reverse
      = (l.dropWhile isWsChar).reverse.takeWhile isWsChar
        ++ (l.dropWhile isWsChar).reverse.dropWhile isWsChar :=
    (List.takeWhile_append_dropWhile isWsChar (l.dropWhile isWsChar).reverse).symm
  have h3 : l.dropWhile isWsChar
      = jsTrim l ++ ((l.dropWhile isWsChar).reverse.takeWhile isWsChar).reverse := by
    unfold jsTrim
    calc l.dropWhile isWsChar
        = (l.dropWhile isWsChar).reverse.reverse := (List.reverse_reverse _).symm
      _ = ((l.dropWhile isWsChar).reverse.takeWhile isWsChar
            ++ (l.dropWhile isWsChar).reverse.dropWhile isWsChar).reverse := by rw [← h2]
      _ = ((l.dropWhile isWsChar).reverse.dropWhile isWsChar).reverse
            ++ ((l.dropWhile isWsChar).reverse.takeWhile isWsChar).reverse := by
          rw [List.reverse_append]
  rw [List.append_assoc, ← h3]
  exact h1

/-- Indexing into the middle segment of a three-part append. -/
theorem getElem?_middle (p t s : List Char) (i : Nat) (hi : i < t.length) :
    (p ++ t ++ s)[p.length + i]? = t[i]? := by
  rw [List.append_assoc, List.getElem?_append_right (by omega), Nat.add_sub_cancel_left,
    List.getElem?_append_left hi]

/-- A list whose last element is `c` reverses to `c` followed by a rest. -/
theorem reverse_cons_of_getLast? (t : List Char) (c : Char) (h : t.getLast? = some c) :
    ∃ r2, t.reverse = c :: r2 := by
  have hh : t.reverse.head? = some c := by
    rw [List.head?_reverse, h]
  cases htr : t.reverse with
  | nil => rw [htr] at hh; simp at hh
  | cons c0 r =>
    rw [htr] at hh
    simp only [List.head?_cons, Option.some.injEq] at hh
    exact ⟨r, by rw [hh]⟩

/-- Lemma: `dropWhile` runs off an appended prefix when the suffix starts with a
non-whitespace character. -/
theorem dropWhile_append_nonws (a X : List Char) (c : Char) (t2 : List Char)
    (hX : X = c :: t2) (hc : isWsChar c = false) :
    (a ++ X).dropWhile isWsChar = a.dropWhile isWsChar ++ X := by
  have hXd : X.dropWhile isWsChar = X := by
    rw [hX]
    exact List.dropWhile_cons_of_neg (by simp [hc])
  rw [List.dropWhile_append]
  split
  · next h =>
    have hnil : a.dropWhile isWsChar = [] := by
      simpa [List.isEmpty_iff] using h
    rw [hXd, hnil, List.nil_append]
  · rfl

/-- Trimming a reply of the form prose-array-prose only shortens the two
prose segments, when the middle part starts with `[` and ends with `]`. -/
theorem jsTrim_sandwich (pre t post t2 : List Char)
    (ht : t = lbrack :: t2) (hlast : t.getLast? = some rbrack) :
    jsTrim (pre ++ t ++ post)
      = pre.dropWhile isWsChar ++ t ++ (post.reverse.dropWhile isWsChar).reverse := by
  obtain ⟨r2, hr2⟩ := reverse_cons_of_getLast? t rbrack hlast
  have s1 : (pre ++ t ++ post).dropWhile isWsChar = pre.dropWhile isWsChar ++ (t ++ post) := by
    rw [List.append_assoc]
    exact dropWhile_append_nonws pre (t ++ post) lbrack (t2 ++ post)
      (by rw [ht]; rfl) (by decide)
  have s2 : (pre.dropWhile isWsChar ++ (t ++ post)).reverse
      = post.reverse ++ (t.reverse ++ (pre.dropWhile isWsChar).reverse) := by
    simp [List.reverse_append, List.append_assoc]
  have s3 : (post.reverse ++ (t.reverse ++ (pre.dropWhile isWsChar).reverse)).dropWhile isWsChar
      = post.reverse.dropWhile isWsChar ++ (t.reverse ++ (pre.dropWhile isWsChar).reverse) :=
    dropWhile_append_nonws _ _ rbrack (r2 ++ (pre.dropWhile isWsChar).reverse)
      (by rw [hr2]; rfl) (by decide)
  unfold jsTrim
  rw [s1, s2, s3]
  simp [List.reverse_append, List.reverse_reverse, List.append_assoc]

/-- The first `[` of the sandwiched text is the head of the middle part. -/
theorem jsIndexOf_sandwich (p2 t q2 t2 : List Char) (ht : t = lbrack :: t2)
    (hp : lbrack ∉ p2) :
    jsIndexOf (p2 ++ t ++ q2) lbrack = some p2.length := by
  unfold jsIndexOf
  rw [List.append_assoc, List.findIdx?_append]
  have h1 : p2.findIdx? (fun x => decide (x = lbrack)) = none :=
    List.findIdx?_eq_none_iff.2 (fun x hx => by
      simp only [decide_eq_false_iff_not]
      exact fun he => hp (he ▸ hx))
  rw [h1, ht]
  simp

/-- The last `]` of the sandwiched text is the last element of the middle
part. -/
theorem jsLastIndexOf_sandwich (p2 t q2 r2 : List Char) (htr : t.reverse = rbrack :: r2)
    (hq : rbrack ∉ q2) :
    jsLastIndexOf (p2 ++ t ++ q2) rbrack = some (p2.length + t.length - 1) := by
  unfold jsLastIndexOf
  have hrev : (p2 ++ t ++ q2).reverse = q2.reverse ++ (t.reverse ++ p2.reverse) := by
    simp [List.reverse_append, List.append_assoc]
  rw [hrev, List.findIdx?_append]
  have h1 : q2.reverse.findIdx? (fun x => decide (x = rbrack)) = none :=
    List.findIdx?_eq_none_iff.2 (fun x hx => by
      simp only [decide_eq_false_iff_not]
      exact fun he => hq (he ▸ (List.mem_reverse.1 hx)))
  rw [h1, htr]
  have hL : t.length = r2.length + 1 := by
    have : t.reverse.length = (rbrack :: r2).length := by rw [htr]
    simpa using this
  simp [List.findIdx?_cons, Option.or]
  omega

/-! ## C2: replies without a usable bracket pair -/

/-- C2 counterexample: a whitespace-only reply has no bracket at all, yet the
extraction step fails through the empty-response branch, not through the
"does not contain a valid JSON array" branch. -/
theorem whitespace_reply_not_noJsonArray :
    lbrack ∉ (" ".data) ∧
    extractRecords (" ".data) = Except.error ProcErr.emptyResponse ∧
    extractRecords (" ".data) ≠ Except.error ProcErr.noJsonArray := by
  refine ⟨by decide, rfl, ?_⟩
  intro h
  rw [show extractRecords (" ".data) = Except.error ProcErr.emptyResponse from rfl] at h
  simp at h

/-- C2 (amended): for every raw reply whose trimmed text is nonempty and in
which no close bracket occurs strictly after an open bracket (in particular
when either bracket is absent, or the last close precedes the first open),
the extraction step fails through the "does not contain a valid JSON array"
branch and never reaches JSON parsing. -/
theorem missing_brackets_noJsonArray (raw : List Char)
    (hne : jsTrim raw ≠ [])
    (hno : ∀ i j : Nat, raw[i]? = some lbrack → raw[j]? = some rbrack → j ≤ i) :
    extractRecords raw = Except.error ProcErr.noJsonArray := by
  have hEAT : extractArrayText raw = Except.error ProcErr.noJsonArray := by
    simp only [extractArrayText]
    rw [if_neg hne]
    rcases hf : jsIndexOf (jsTrim raw) lbrack with _ | f
    · rfl
    · rcases hl : jsLastIndexOf (jsTrim raw) rbrack with _ | l
      · rfl
      · have hfl : ¬ f < l := by
          intro hlt
          obtain ⟨p, s, hps⟩ := jsTrim_decomp raw
          simp only [jsIndexOf] at hf
          simp only [jsLastIndexOf] at hl
          obtain ⟨hfLen, hfP, -⟩ := List.findIdx?_eq_some_iff_getElem.1 hf
          obtain ⟨i0, hi0, hil⟩ := Option.map_eq_some'.1 hl
          obtain ⟨hiLen, hiP, -⟩ := List.findIdx?_eq_some_iff_getElem.1 hi0
          have hiLen' : i0 < (jsTrim raw).length := by
            simpa using hiLen
          have ht1 : (jsTrim raw)[f]? = some lbrack := by
            rw [List.getElem?_eq_getElem hfLen]
            exact congrArg some (of_decide_eq_true hfP)
          have ht2 : (jsTrim raw)[l]? = some rbrack := by
            have hrev : (jsTrim raw).reverse[i0]? = some rbrack := by
              rw [List.getElem?_eq_getElem hiLen]
              exact congrArg some (of_decide_eq_true hiP)
            rw [List.getElem?_reverse hiLen'] at hrev
            rwa [← hil]
          have hlLen : l < (jsTrim raw).length := by omega
          have h1 : raw[p.length + f]? = some lbrack := by
            conv_lhs => rw [hps]
            rw [getElem?_middle _ _ _ _ hfLen]
            exact ht1
          have h2 : raw[p.length + l]? = some rbrack := by
            conv_lhs => rw [hps]
            rw [getElem?_middle _ _ _ _ hlLen]
            exact ht2
          have := hno _ _ h1 h2
          omega
        simp only [hf, hl, if_neg hfl]
  simp [extractRecords, hEAT]

theorem missing_brackets_noJsonArray_witness :
    jsTrim ("no json here".data) ≠ [] ∧
    extractRecords ("no json here".data) = Except.error ProcErr.noJsonArray :=
  ⟨by decide, missing_brackets_noJsonArray _ (by decide)
    (fun _ _ hi _ => absurd (List.getElem?_mem hi) (by decide))⟩

/-! ## C1: extraction of an embedded JSON array -/

/-- C1 counterexample: the reply "ref [1]: [2]" contains the well-formed
JSON array "[2]" with prose before and after it, but because the leading
prose itself contains a bracket, the slice spans from that bracket and the
extraction fails with invalid JSON instead of returning the parsed array. -/
theorem bracketed_prose_breaks_extraction :
    ("ref [1]: [2]".data) = ("ref [1]: ".data) ++ ("[2]".data) ++ ([] : List Char) ∧
    parseJson ("[2]".data) = some (Json.arr [Json.num 2]) ∧
    extractRecords ("ref [1]: [2]".data) = Except.error ProcErr.invalidJson ∧
    extractRecords ("ref [1]: [2]".data) ≠ Except.ok (Json.arr [Json.num 2]) := by
  refine ⟨rfl, rfl, rfl, ?_⟩
  intro h
  rw [show extractRecords ("ref [1]: [2]".data) = Except.error ProcErr.invalidJson from rfl] at h
  simp at h

/-- C1 (amended): for every raw reply of the shape prose-arrayText-prose in
which the leading prose contains no open bracket and the trailing prose
contains no close bracket, the extraction step returns exactly the parsed
value of the array text (which starts with `[` and ends with `]`). -/
theorem embedded_array_extracted (pre t post t2 : List Char) (arr : Json)
    (hpre : lbrack ∉ pre) (hpost : rbrack ∉ post)
    (ht : t = lbrack :: t2) (hlast : t.getLast? = some rbrack)
    (hparse : parseJson t = some arr) :
    extractRecords (pre ++ t ++ post) = Except.ok arr := by
  obtain ⟨r2, hr2⟩ := reverse_cons_of_getLast? t rbrack hlast
  have htrim := jsTrim_sandwich pre t post t2 ht hlast
  have hp2 : lbrack ∉ pre.dropWhile isWsChar :=
    fun hx => hpre (List.dropWhile_subset _ hx)
  have hq2 : rbrack ∉ (post.reverse.dropWhile isWsChar).reverse :=
    fun hx => hpost (List.mem_reverse.1 (List.dropWhile_subset _ (List.mem_reverse.1 hx)))
  have ht2ne : t2 ≠ [] := by
    rintro rfl
    rw [ht] at hlast
    simp only [List.getLast?_singleton, Option.some.injEq] at hlast
    exact absurd hlast (by decide)
  have htlen : 2 ≤ t.length := by
    rw [ht]
    cases t2 with
    | nil => exact absurd rfl ht2ne
    | cons a l => simp
  have htne : jsTrim (pre ++ t ++ post) ≠ [] := by
    rw [htrim, ht]
    simp
  have hEAT : extractArrayText (pre ++ t ++ post) = Except.ok t := by
    simp only [extractArrayText]
    rw [if_neg htne, htrim,
      jsIndexOf_sandwich (pre.dropWhile isWsChar) t ((post.reverse.dropWhile isWsChar).reverse)
        t2 ht hp2,
      jsLastIndexOf_sandwich (pre.dropWhile isWsChar) t
        ((post.reverse.dropWhile isWsChar).reverse) r2 hr2 hq2]
    show (if (pre.dropWhile isWsChar).length
          < (pre.dropWhile isWsChar).length + t.length - 1 then
        Except.ok (jsSubstring (pre.dropWhile isWsChar ++ t
            ++ (post.reverse.dropWhile isWsChar).reverse)
          (pre.dropWhile isWsChar).length
          ((pre.dropWhile isWsChar).length + t.length - 1 + 1))
      else Except.error ProcErr.noJsonArray) = Except.ok t
    rw [if_pos (by omega)]
    have harith : (pre.dropWhile isWsChar).length + t.length - 1 + 1
        = (pre.dropWhile isWsChar).length + t.length := by omega
    rw [harith]
    unfold jsSubstring
    rw [List.take_left' (by simp), List.drop_left]
  unfold extractRecords
  rw [hEAT]
  show (match parseJson t with
    | some v => Except.ok v
    | none => Except.error ProcErr.invalidJson) = Except.ok arr
  rw [hparse]

theorem embedded_array_extracted_witness :
    lbrack ∉ ("Sure, here is the result: ".data) ∧
    rbrack ∉ (" Let me know if you need more.".data) ∧
    parseJson ("[\x7b\"Module\":\"Battery\"\x7d]".data)
      = some (Json.arr [Json.obj [(("Module".data), Json.str ("Battery".data))]]) ∧
    extractRecords (("Sure, here is the result: ".data)
        ++ ("[\x7b\"Module\":\"Battery\"\x7d]".data)
        ++ (" Let me know if you need more.".data))
      = Except.ok (Json.arr [Json.obj [(("Module".data), Json.str ("Battery".data))]]) :=
  ⟨by decide, by decide, rfl,
    embedded_array_extracted ("Sure, here is the result: ".data)
      ("[\x7b\"Module\":\"Battery\"\x7d]".data)
      (" Let me know if you need more.".data)
      (("\x7b\"Module\":\"Battery\"\x7d]".data))
      (Json.arr [Json.obj [(("Module".data), Json.str ("Battery".data))]])
      (by decide) (by decide) rfl rfl rfl⟩

/-! ## C4: the replace reconciliation -/

/-- C4: under the replace policy the result is the AI record sequence
verbatim, independent of the original rows — no length validation or
correction against the originals happens. -/
theorem replace_policy_verbatim (rows rows2 : List JsObj) (ai : Json) :
    reconcileReplace rows ai = ai ∧ reconcileReplace rows ai = reconcileReplace rows2 ai :=
  ⟨rfl, rfl⟩

/-! ## Helper lemmas about the filename digits -/

theorem natDigits_ne_nil (n : Nat) : natDigits n ≠ [] := by
  rw [natDigits]
  split
  · simp
  · simp

theorem natDigits_all_digit (n : Nat) : (natDigits n).all Char.isDigit = true := by
  induction n using Nat.strong_induction_on with
  | _ n ih =>
    rw [natDigits]
    split
    · next h =>
      simp only [List.all_cons, List.all_nil, Bool.and_true]
      interval_cases n <;> decide
    · next h =>
      rw [List.all_append, Bool.and_eq_true]
      refine ⟨ih (n / 10) (Nat.div_lt_self (by omega) (by omega)), ?_⟩
      simp only [List.all_cons, List.all_nil, Bool.and_true]
      have hm : n % 10 < 10 := Nat.mod_lt n (by omega)
      interval_cases hmod : n % 10 <;> decide

theorem natDigits_length_step (n : Nat) (h : 10 ≤ n) :
    (natDigits n).length = (natDigits (n / 10)).length + 1 := by
  rw [natDigits]
  rw [dif_neg (by omega)]
  simp

theorem natDigits_length_one (n : Nat) (h : n < 10) : (natDigits n).length = 1 := by
  rw [natDigits, dif_pos h]
  rfl

theorem natDigits_length_four (n : Nat) (h1 : 1000 ≤ n) (h2 : n < 10000) :
    (natDigits n).length = 4 := by
  rw [natDigits_length_step n (by omega), natDigits_length_step (n / 10) (by omega),
    natDigits_length_step (n / 10 / 10) (by omega),
    natDigits_length_one (n / 10 / 10 / 10) (by omega)]

theorem pad2_length (n : Nat) : (pad2 n).length = 2 := by
  unfold pad2
  rw [List.length_drop]
  have h1 : (natDigits n).length ≠ 0 := fun h => natDigits_ne_nil n (List.length_eq_zero.1 h)
  simp only [List.length_cons]
  omega

theorem pad2_all_digit (n : Nat) : (pad2 n).all Char.isDigit = true := by
  have hfull : (Char.ofNat 48 :: natDigits n).all Char.isDigit = true := by
    rw [List.all_cons, Bool.and_eq_true]
    exact ⟨by decide, natDigits_all_digit n⟩
  refine List.all_eq_true.2 (fun x hx => ?_)
  exact List.all_eq_true.1 hfull x (List.drop_subset _ _ hx)

/-! ## C5: output filename format and distinctness -/

/-- A fixed timestamp used in the filename counterexample and witness. -/
def sampleDate : JsDate :=
  { fullYear := 2026, monthIndex := 9, dayOfMonth := 11,
    hours := 13, minutes := 40, seconds := 52 }

/-- C5 counterexample: two same-second requests with different model ids
("a:1" and "a1") and the same original filename produce the same output
path, because removing colons from the model id is not injective. -/
theorem model_sanitization_collision :
    ("a:1".data) ≠ ("a1".data) ∧
    processedPath ("a:1".data) sampleDate ("report.xlsx".data)
      = processedPath ("a1".data) sampleDate ("report.xlsx".data) := by
  refine ⟨by decide, ?_⟩
  unfold processedPath processedFilename
  rw [show stripColons ("a:1".data) = ("a1".data) from rfl,
    show stripColons ("a1".data) = ("a1".data) from rfl]

/-- C5 (amended): the output filename is the colon-stripped model id, a dash,
a YYYYMMDD-HHMMSS timestamp (8 digits, dash, 6 digits for a four-digit
year), a dash, and the original filename; two same-second requests get
distinct paths when their colon-stripped model ids agree but the original
filenames differ, or when the colon-stripped model ids differ but have
equal length. -/
theorem filename_structure_and_distinctness (m1 m2 f1 f2 : List Char) (d : JsDate)
    (hy1 : 1000 ≤ d.fullYear) (hy2 : d.fullYear < 10000) :
    (∃ a b, datetimeString d = a ++ '-' :: b ∧ a.length = 8 ∧ b.length = 6 ∧
      (a ++ b).all Char.isDigit = true) ∧
    (stripColons m1 = stripColons m2 → f1 ≠ f2 →
      processedPath m1 d f1 ≠ processedPath m2 d f2) ∧
    (stripColons m1 ≠ stripColons m2 → (stripColons m1).length = (stripColons m2).length →
      processedPath m1 d f1 ≠ processedPath m2 d f2) := by
  refine ⟨?_, ?_, ?_⟩
  · refine ⟨natDigits d.fullYear ++ pad2 (d.monthIndex + 1) ++ pad2 d.dayOfMonth,
      pad2 d.hours ++ pad2 d.minutes ++ pad2 d.seconds, ?_, ?_, ?_, ?_⟩
    · unfold datetimeString
      simp [List.append_assoc]
    · simp only [List.length_append, pad2_length]
      rw [natDigits_length_four d.fullYear hy1 hy2]
    · simp only [List.length_append, pad2_length]
    · simp only [List.all_append, natDigits_all_digit, pad2_all_digit, Bool.and_self]
  · intro hm hf hpath
    unfold processedPath processedFilename at hpath
    rw [hm] at hpath
    have h1 := List.append_cancel_left hpath
    have h2 := List.append_cancel_left h1
    have h3 := List.cons.inj h2
    have h4 := List.append_cancel_left h3.2
    exact hf (List.cons.inj h4).2
  · intro hm hlen hpath
    unfold processedPath processedFilename at hpath
    have h1 := List.append_cancel_left hpath
    exact hm (List.append_inj_left h1 hlen)

theorem filename_structure_and_distinctness_witness :
    1000 ≤ sampleDate.fullYear ∧ sampleDate.fullYear < 10000 ∧
    (stripColons ("a:1".data) = stripColons ("a1".data) →
      ("report.xlsx".data) ≠ ("data.xlsx".data) →
      processedPath ("a:1".data) sampleDate ("report.xlsx".data)
        ≠ processedPath ("a1".data) sampleDate ("data.xlsx".data)) :=
  ⟨by decide, by decide,
    (filename_structure_and_distinctness ("a:1".data) ("a1".data)
      ("report.xlsx".data) ("data.xlsx".data) sampleDate (by decide) (by decide)).2.1⟩

/-! ## C8: cleanup after the output write -/

/-- C8 counterexample: when deleting the uploaded input file throws after a
successful output write, `processExcel` answers with the 500 failure
response, not with the success response — the deletion failure is escalated,
not merely logged. -/
theorem unlink_failure_fails_request :
    (finishExcel (Except.ok ()) (Except.error ("EPERM".data)) ("out.xlsx".data)).1
      = ExcelResponse.failure 500 ("EPERM".data) ∧
    (finishExcel (Except.ok ()) (Except.error ("EPERM".data)) ("out.xlsx".data)).1
      ≠ ExcelResponse.success (("/downloads/".data) ++ ("out.xlsx".data)) ("out.xlsx".data) := by
  refine ⟨rfl, ?_⟩
  intro h
  rw [show (finishExcel (Except.ok ()) (Except.error ("EPERM".data)) ("out.xlsx".data)).1
      = ExcelResponse.failure 500 ("EPERM".data) from rfl] at h
  exact ExcelResponse.noConfusion h

/-- C8 (amended): after a successful output write the deletion of the
transient upload is attempted, but its failure propagates to the catch-all
handler and turns the request into a 500 failure; the success response is
sent only when the deletion also succeeds. -/
theorem cleanup_escalation_semantics (f e : List Char) :
    (finishExcel (Except.ok ()) (Except.error e) f).2
        = [FsStep.writeOutput, FsStep.unlinkUpload] ∧
    (finishExcel (Except.ok ()) (Except.error e) f).1 = ExcelResponse.failure 500 e ∧
    (finishExcel (Except.ok ()) (Except.ok ()) f).1
        = ExcelResponse.success (("/downloads/".data) ++ f) f :=
  ⟨rfl, rfl, rfl⟩

/-! ## C6: empty replies from the inference backend -/

/-- C6: when the backend reply parses as JSON, carries no truthy error
field, and the extracted reply text is empty or whitespace-only, the
inference client's end-of-response handler rejects with the empty-response
error instead of resolving. -/
theorem empty_reply_rejected (raw : List Char) (j : Json) (s : List Char)
    (hp : parseJson raw = some j)
    (hb : (jsTruthy j && truthyOpt (jsField j ("error".data))) = false)
    (hr : extractedReply j raw = Json.str s)
    (hw : jsTrim s = []) :
    callOllamaOnEnd raw = Except.error OllamaErr.emptyReply := by
  unfold callOllamaOnEnd
  rw [hp]
  show (if jsTruthy j && truthyOpt (jsField j ("error".data)) then
      Except.error OllamaErr.backendError
    else if isEmptyReplyVal (extractedReply j raw) then
      Except.error OllamaErr.emptyReply
    else Except.ok (extractedReply j raw)) = Except.error OllamaErr.emptyReply
  rw [hb]
  rw [if_neg (by simp)]
  rw [hr]
  rw [if_pos (by simp [isEmptyReplyVal, hw])]

theorem empty_reply_rejected_witness :
    parseJson ("\x7b\"response\":\"  \"\x7d".data)
      = some (Json.obj [(("response".data), Json.str ("  ".data))]) ∧
    (jsTruthy (Json.obj [(("response".data), Json.str ("  ".data))]) &&
      truthyOpt (jsField (Json.obj [(("response".data), Json.str ("  ".data))])
        ("error".data))) = false ∧
    extractedReply (Json.obj [(("response".data), Json.str ("  ".data))])
      ("\x7b\"response\":\"  \"\x7d".data) = Json.str ("  ".data) ∧
    jsTrim ("  ".data) = [] ∧
    callOllamaOnEnd ("\x7b\"response\":\"  \"\x7d".data)
      = Except.error OllamaErr.emptyReply :=
  ⟨rfl, rfl, rfl, rfl, empty_reply_rejected _ _ _ rfl rfl rfl rfl⟩

/-! ## C9: spreadsheet round-trip -/

theorem filter_not_contains_nil (l : List String) :
    l.filter (fun k => !(([] : List String).contains k)) = l :=
  List.filter_eq_self.2 (fun _ _ => rfl)

theorem mem_foldl_cols (rs : List (List (String × String))) (acc : List String) (x : String)
    (hx : x ∈ acc) :
    x ∈ rs.foldl (fun acc r => acc ++ (r.map Prod.fst).filter (fun k => !acc.contains k)) acc := by
  induction rs generalizing acc with
  | nil => exact hx
  | cons r rest ih => exact ih _ (List.mem_append_left _ hx)

/-- The keys of a decoded row are exactly the header columns. -/
theorem decode_row_keys (s : Sheet) (row : List (Option String)) :
    (s.header.enum.map (fun p => (p.2, ((row.get? p.1).bind id).getD ""))).map Prod.fst
      = s.header := by
  rw [List.map_map]
  exact List.enum_map_snd s.header

/-- A sheet with a header but no data rows. -/
def emptySheet : Sheet := { header := ["A"], dataRows := [] }

/-- C9 counterexample: for a sheet with one header column and zero data
rows, re-encoding the decoded rows yields an empty column set, which is not
a superset of the original header. -/
theorem roundtrip_empty_sheet_loses_header :
    emptySheet.dataRows.length = 0 ∧
    (json_to_sheet (sheet_to_json emptySheet)).header = [] ∧
    "A" ∈ emptySheet.header ∧
    "A" ∉ (json_to_sheet (sheet_to_json emptySheet)).header := by
  refine ⟨rfl, rfl, by simp [emptySheet], ?_⟩
  rw [show (json_to_sheet (sheet_to_json emptySheet)).header = [] from rfl]
  exact List.not_mem_nil _

/-- C9 (amended): encoding the decoded rows of a spreadsheet preserves the
data row count, and when there is at least one data row the encoded column
set contains every original header column. -/
theorem roundtrip_rowcount_and_columns (s : Sheet) :
    (json_to_sheet (sheet_to_json s)).dataRows.length = s.dataRows.length ∧
    (s.dataRows ≠ [] → ∀ h ∈ s.header, h ∈ (json_to_sheet (sheet_to_json s)).header) := by
  constructor
  · simp [json_to_sheet, sheet_to_json]
  · intro hne h hh
    obtain ⟨r0, rest, hr⟩ := List.exists_cons_of_ne_nil hne
    show h ∈ firstSeenColumns (sheet_to_json s)
    unfold sheet_to_json
    rw [hr, List.map_cons]
    unfold firstSeenColumns
    rw [List.foldl_cons, List.nil_append, filter_not_contains_nil]
    apply mem_foldl_cols
    rw [decode_row_keys]
    exact hh

/-- A sheet with two columns and one data row (one blank cell). -/
def sampleSheet : Sheet := { header := ["A", "B"], dataRows := [[some "x", none]] }

theorem roundtrip_rowcount_and_columns_witness :
    sampleSheet.dataRows ≠ [] ∧
    "A" ∈ sampleSheet.header ∧
    "A" ∈ (json_to_sheet (sheet_to_json sampleSheet)).header :=
  ⟨by decide, by simp [sampleSheet],
    (roundtrip_rowcount_and_columns sampleSheet).2 (by decide) "A" (by simp [sampleSheet])⟩

end BetaUserData
